import Mathlib

/-!
Verification of the subsidy-form job-relay backend: a three-endpoint
protocol (submit → callback → stream) over a single `subsidy_jobs` row.
The endpoints are embedded as pure Lean functions over an abstract job
store (`Db V := String → Option (JobRow V)`); the SSE stream connection
is embedded as a state machine (`SseState`) whose atomic steps are the
initial row read, live change-notification payloads, and the client
abort signal.  JSON result payloads are abstracted by a type parameter
`V` (`none` = SQL/JSON null); serialization of the result payload is
not modelled, the `result` event carries the payload value itself.
-/

namespace SubsidyForm

/-- An entry of the stored `logs` array.  The database column is typed
`string[] | null` but the stream endpoint re-checks each entry with
`typeof line === "string"` at runtime, so an entry is either a string
or some non-string value. -/
inductive LogEntry where
  | str (s : String)
  | nonStr
deriving DecidableEq

/-- The `subsidy_jobs` row as selected by the endpoints
(`id,status,logs,result,error,…`).  `logs = none` models a SQL null
(not an array); `result = none` models a null result.  The audit
`payload` column is never read back by any endpoint and is not
modelled. -/
structure JobRow (V : Type) where
  status : String
  progress : Int
  message : Option String
  logs : Option (List LogEntry)
  result : Option V
  error : Option String
deriving DecidableEq

/-- The job store: rows keyed by job id. -/
def Db (V : Type) : Type := String → Option (JobRow V)

/-- A partial update as sent to `supabase.update(patch)`: only the
fields present in the patch are written. `result := some none` writes a
JSON null into the result column. -/
structure JobPatch (V : Type) where
  status : Option String := none
  progress : Option Int := none
  message : Option String := none
  error : Option String := none
  result : Option (Option V) := none
deriving DecidableEq

/-- Merge a patch into a row: present patch fields overwrite, absent
fields keep the stored value (supabase partial-update semantics). -/
def applyPatch {V : Type} (row : JobRow V) (p : JobPatch V) : JobRow V :=
  { row with
    status := p.status.getD row.status
    progress := p.progress.getD row.progress
    message := match p.message with | some m => some m | none => row.message
    error := match p.error with | some e => some e | none => row.error
    result := p.result.getD row.result }

/-- `update(patch).eq("id", id)`: patch the row with the given id, if
present; all other rows are untouched. -/
def dbUpdate {V : Type} (db : Db V) (id : String) (p : JobPatch V) : Db V :=
  fun k => if k = id then (db k).map (fun r => applyPatch r p) else db k

/-- `insert(row)`: place a fresh row under the given id. -/
def dbInsert {V : Type} (db : Db V) (id : String) (row : JobRow V) : Db V :=
  fun k => if k = id then some row else db k

/-- A JSON response from an API route handler. -/
structure JsonResp where
  status : Nat
  ok : Bool
  error : Option String := none
  jobId : Option String := none
deriving DecidableEq

/-! ## Callback endpoint (`src/app/api/result/route.ts`, `POST`) -/

/-- The parsed callback request body.  `status`, `progress`, `message`,
`error`, `secret` are `none` when the field is absent (or not of the
checked runtime type); `result = some none` models a present JSON-null
result (`typeof body.result !== "undefined"` counts null as
present). -/
structure CallbackBody (V : Type) where
  jobId : String
  status : Option String := none
  progress : Option Int := none
  message : Option String := none
  result : Option (Option V) := none
  error : Option String := none
  secret : Option String := none
deriving DecidableEq

/-- The patch built by the callback handler: `status` only when truthy
(non-empty), `progress` clamped to [0,100] via
`Math.max(0, Math.min(100, p))`, `message`/`error` when present as
strings, `result` when not undefined. -/
def buildPatch {V : Type} (b : CallbackBody V) : JobPatch V :=
  { status := match b.status with
      | some s => if s ≠ "" then some s else none
      | none => none
    progress := b.progress.map (fun p => max 0 (min 100 p))
    message := b.message
    error := b.error
    result := b.result }

/-- The callback handler `POST`.  `cfgSecret` is the configured
`N8N_RESULT_CALLBACK_SECRET` (`""` when unset, which disables the
check, matching the JS truthiness test); `storeErr` is the outcome of
the store update (`some msg` = supabase returned an error, in which
case the row is not mutated). -/
def resultPOST {V : Type} (cfgSecret : String) (b : CallbackBody V)
    (db : Db V) (storeErr : Option String) : JsonResp × Db V :=
  if cfgSecret ≠ "" ∧ b.secret ≠ some cfgSecret then
    ({ status := 401, ok := false, error := some "unauthorized" }, db)
  else if b.jobId = "" then
    ({ status := 400, ok := false, error := some "jobId required" }, db)
  else
    match storeErr with
    | some m => ({ status := 500, ok := false, error := some m }, db)
    | none => ({ status := 200, ok := true }, dbUpdate db b.jobId (buildPatch b))

/-! ## Submission endpoint (`src/app/api/submit/route.ts`, `POST`) -/

/-- Outcome of the outbound `fetch` to the n8n webhook: `ok` is the
HTTP success flag, `statusCode` its status, `text` the response body
(`""` when unreadable, matching `.catch(() => "")`). -/
structure FetchRes where
  ok : Bool
  statusCode : Nat
  text : String
deriving DecidableEq

/-- Outcome of the initial job insert: a fresh row id, or a store
error (`msg = none` models `insErr` absent with no data row). -/
inductive InsertOutcome where
  | inserted (id : String)
  | failed (msg : Option String)
deriving DecidableEq

/-- The row created by the submission endpoint:
`{status:"queued", progress:0, message:"受付完了。診断を開始します。"}`
(logs/result/error columns are left null). -/
def queuedRow (V : Type) : JobRow V :=
  { status := "queued", progress := 0, message := some "受付完了。診断を開始します。",
    logs := none, result := none, error := none }

/-- The submission handler `POST`.  `ins` is the insert outcome,
`n8nUrl` the configured `N8N_WEBHOOK_URL` (`""` when unset), `fire`
the webhook dispatch outcome. -/
def submitPOST {V : Type} (ins : InsertOutcome) (n8nUrl : String)
    (fire : FetchRes) (db : Db V) : JsonResp × Db V :=
  match ins with
  | .failed msg =>
      ({ status := 500, ok := false, error := some (msg.getD "insert failed") }, db)
  | .inserted id =>
      let db1 := dbInsert db id (queuedRow V)
      if n8nUrl = "" then
        ({ status := 500, ok := false, error := some "N8N_WEBHOOK_URL が未設定" }, db1)
      else if fire.ok = false then
        let db2 := dbUpdate db1 id
          { status := some "error",
            error := some (if fire.text ≠ "" then fire.text
                           else "n8n error " ++ toString fire.statusCode),
            message := some "起動に失敗しました" }
        ({ status := 502, ok := false, jobId := some id,
           error := some (if fire.text ≠ "" then fire.text else "n8n webhook error") }, db2)
      else
        ({ status := 200, ok := true, jobId := some id }, db1)

/-! ## Stream endpoint (the SSE route, `GET`) -/

/-- A server-sent event as produced by `sse(data, event)`: the three
event names used are `log`, `result` and `error`.  The `result` event
carries the payload value (its JSON serialization is abstracted). -/
inductive Event (V : Type) where
  | log (s : String)
  | result (v : V)
  | errorEv (s : String)
deriving DecidableEq

/-- The per-connection mutable state: the events written so far (in
order), the one-shot `closed` flag, and whether the realtime channel
subscription is currently active. -/
structure SseState (V : Type) where
  events : List (Event V)
  closed : Bool
  subscribed : Bool
deriving DecidableEq

/-- `write(chunk)`: a no-op once `closed` is set, otherwise append. -/
def write {V : Type} (st : SseState V) (e : Event V) : SseState V :=
  if st.closed then st else { st with events := st.events ++ [e] }

/-- The initial per-connection state before the `connected` ack. -/
def initState (V : Type) : SseState V :=
  { events := [], closed := false, subscribed := false }

/-- Outcome of the one initial row read
(`select(...).eq("id", jobId).maybeSingle()`): a store error with its
message, no matching row, or the row. -/
inductive ReadOutcome (V : Type) where
  | readErr (msg : String)
  | notFound
  | found (row : JobRow V)
deriving DecidableEq

/-- The body of the history-replay loop: write one `log` event when
the entry is a string whose trim is non-empty, else skip it. -/
def replayStep {V : Type} (s : SseState V) (line : LogEntry) : SseState V :=
  match line with
  | .str t => if t.trim ≠ "" then write s (.log t) else s
  | .nonStr => s

/-- The history-replay loop: iterate `replayStep` over the stored
`logs` array; a null (non-array) column replays nothing. -/
def replayFold {V : Type} (st : SseState V) (logs : Option (List LogEntry)) : SseState V :=
  match logs with
  | none => st
  | some ls => ls.foldl replayStep st

/-- Connection-time processing of a found row: replay history, then
emit a terminal `result` event when `status === "done" && result != null`,
else a terminal `error` event when `status === "error"` (message
`error ?? "job error"`), else establish the live subscription. -/
def connectFound {V : Type} (st0 : SseState V) (row : JobRow V) : SseState V :=
  let st1 := replayFold st0 row.logs
  match row.result, row.status == "done" with
  | some v, true =>
      { write st1 (.result v) with closed := true }
  | _, _ =>
      if row.status = "error" then
        { write st1 (.errorEv (row.error.getD "job error")) with closed := true }
      else
        { st1 with subscribed := true }

/-- The whole connection-time phase: write the `connected` ack, read
the row once, then branch on the read outcome (`error || !data` emits
`error?.message ?? "job not found"` and closes). -/
def connectState {V : Type} (read : ReadOutcome V) : SseState V :=
  let st0 := write (initState V) (.log "connected")
  match read with
  | .readErr msg => { write st0 (.errorEv msg) with closed := true }
  | .notFound => { write st0 (.errorEv "job not found") with closed := true }
  | .found row => connectFound st0 row

/-- A live change-notification payload, i.e. `payload.new` read as a
partial row: `logs` when it is an array, `status` when present,
`result` (`none` = null or absent), `error` when present. -/
structure UpdPayload (V : Type) where
  logs : Option (List LogEntry) := none
  status : Option String := none
  result : Option V := none
  error : Option String := none
deriving DecidableEq

/-- The incremental-log part of the live handler: when the payload
carries a log array, emit its last entry (`logs[logs.length - 1]`) as
one `log` event when that entry is a non-blank string. -/
def tailLog {V : Type} (st : SseState V) (logs : Option (List LogEntry)) : SseState V :=
  match logs with
  | some ls =>
      match ls.getLast? with
      | some (.str t) => if t.trim ≠ "" then write st (.log t) else st
      | _ => st
  | none => st

/-- The `postgres_changes` handler: on a payload with no `new`, do
nothing; otherwise emit the last log entry when it is a non-blank
string, then close with an `error` event when `status === "error"`,
or with a `result` event when `status === "done" && result != null`
(removing the channel in both terminal cases). -/
def handleUpdate {V : Type} (st : SseState V) (n : Option (UpdPayload V)) : SseState V :=
  match n with
  | none => st
  | some n =>
      let st1 := tailLog st n.logs
      if n.status = some "error" then
        { write st1 (.errorEv (n.error.getD "job error")) with
          closed := true, subscribed := false }
      else
        match n.result, n.status == some "done" with
        | some v, true =>
            { write st1 (.result v) with closed := true, subscribed := false }
        | _, _ => st1

/-- An atomic external stimulus on an open connection: a delivered
change notification, or the client-abort signal. -/
inductive Step (V : Type) where
  | update (n : Option (UpdPayload V))
  | abort
deriving DecidableEq

/-- One atomic step.  A change notification reaches the handler only
while the channel subscription is active; the abort listener removes
the channel and then closes the writer under the `!closed` guard. -/
def stepRun {V : Type} (st : SseState V) : Step V → SseState V
  | .update n => if st.subscribed then handleUpdate st n else st
  | .abort =>
      let st1 := { st with subscribed := false }
      if st1.closed then st1 else { st1 with closed := true }

/-- Run a sequence of atomic steps. -/
def runSteps {V : Type} (st : SseState V) (steps : List (Step V)) : SseState V :=
  steps.foldl stepRun st

/-- The stream route's HTTP result: a plain response (the 400 path) or
an SSE response whose connection evolves from the given state. -/
inductive GETResult (V : Type) where
  | plain (body : String) (status : Nat)
  | sse (st : SseState V)
deriving DecidableEq

/-- The stream route `GET`: `jobId` is the query parameter after
`?? ""` (so a missing parameter arrives as `""`); an empty id returns
a plain 400 before any store read, otherwise the SSE connection is
established from the read outcome. -/
def streamGET {V : Type} (jobId : String) (read : ReadOutcome V) : GETResult V :=
  if jobId = "" then .plain "missing jobId" 400
  else .sse (connectState read)

/-! ## Event counting -/

/-- Is this event one of the two terminal events? -/
def isTerminalEv {V : Type} : Event V → Bool
  | .log _ => false
  | .result _ => true
  | .errorEv _ => true

/-- Is this a `result` event? -/
def isResultEv {V : Type} : Event V → Bool
  | .result _ => true
  | _ => false

/-- Is this an `error` event? -/
def isErrorEv {V : Type} : Event V → Bool
  | .errorEv _ => true
  | _ => false

/-- Number of terminal events in an event sequence. -/
def countTerminal {V : Type} (es : List (Event V)) : Nat :=
  es.countP (fun e => isTerminalEv e)

/-- Number of `result` events in an event sequence. -/
def countResult {V : Type} (es : List (Event V)) : Nat :=
  es.countP (fun e => isResultEv e)

/-- Number of `error` events in an event sequence. -/
def countError {V : Type} (es : List (Event V)) : Nat :=
  es.countP (fun e => isErrorEv e)

/-! ## Derived definitions and witness inputs -/

/-- The log events replayed from a stored logs array: one `log` event
per entry that is a non-blank string, in stored order. -/
def histList {V : Type} (ls : List LogEntry) : List (Event V) :=
  ls.filterMap (fun line =>
    match line with
    | .str t => if t.trim ≠ "" then some (Event.log t) else none
    | .nonStr => none)

/-- History events of a possibly-null logs column. -/
def histEvents {V : Type} (logs : Option (List LogEntry)) : List (Event V) :=
  match logs with
  | none => []
  | some ls => histList ls

/-- The per-connection safety invariant: never more than one terminal
event; no terminal event while the writer is open; the subscription is
only active while the writer is open. -/
def goodState {V : Type} (st : SseState V) : Prop :=
  countTerminal st.events ≤ 1 ∧
  (st.closed = false → countTerminal st.events = 0) ∧
  (st.subscribed = true → st.closed = false)

/-- A connection that is open and tailing live updates, with no
terminal event emitted yet. -/
def liveState {V : Type} (st : SseState V) : Prop :=
  st.closed = false ∧ st.subscribed = true ∧ countTerminal st.events = 0

/-- A stimulus that is neither the abort signal nor an update that
triggers a terminal branch of the live handler. -/
def nonClosingStep {V : Type} : Step V → Prop
  | .update none => True
  | .update (some n) =>
      ¬(n.status = some "error") ∧ ¬(n.status = some "done" ∧ n.result ≠ none)
  | .abort => False

/-- Modelled from the spec wording of step 3: the stored log lines
that are non-blank strings, kept in stored order. -/
def specNonBlankLines (ls : List LogEntry) : List String :=
  (ls.filterMap (fun line => match line with
    | .str t => some t
    | .nonStr => none)).filter (fun t => t.trim ≠ "")

/-- A concrete already-done row with a history containing a blank and
a non-string entry, used as a witness input. -/
def sampleDoneRow : JobRow Nat :=
  { status := "done", progress := 100, message := none,
    logs := some [LogEntry.str "step 1", LogEntry.str "  ", LogEntry.nonStr,
                  LogEntry.str "step 2"],
    result := some 7, error := none }

/-- The stored log list of `sampleDoneRow`, used as a witness input. -/
def sampleLogList : List LogEntry :=
  [LogEntry.str "step 1", LogEntry.str "  ", LogEntry.nonStr, LogEntry.str "step 2"]

/-- A concrete row with `status = done` but a null result, used as a
witness input. -/
def doneNullRow : JobRow Nat :=
  { status := "done", progress := 0, message := none,
    logs := none, result := none, error := none }

/-- A concrete open, subscribed connection state, used as a witness
input. -/
def openTailState : SseState Nat :=
  { events := [], closed := false, subscribed := true }

/-- A concrete live payload with `status = done` and a null result,
used as a witness input. -/
def doneNullPayload : UpdPayload Nat :=
  { status := some "done" }

/-- A concrete non-terminal (running) row, used as a witness input. -/
def runningRow : JobRow Nat :=
  { status := "running", progress := 10, message := none,
    logs := none, result := none, error := none }

/-- A concrete live payload with `status = error`, used as a witness
input. -/
def errorPayload : UpdPayload Nat :=
  { status := some "error", error := some "boom" }

/-! ## Basic lemmas about writes and event counts -/

theorem write_dead {V : Type} (st : SseState V) (e : Event V) (h : st.closed = true) :
    write st e = st := by
  simp [write, h]

theorem write_open {V : Type} (st : SseState V) (e : Event V) (h : st.closed = false) :
    write st e = { st with events := st.events ++ [e] } := by
  simp [write, h]

theorem countTerminal_append {V : Type} (xs ys : List (Event V)) :
    countTerminal (xs ++ ys) = countTerminal xs + countTerminal ys := by
  simp [countTerminal, List.countP_append]

theorem countResult_append {V : Type} (xs ys : List (Event V)) :
    countResult (xs ++ ys) = countResult xs + countResult ys := by
  simp [countResult, List.countP_append]

theorem countError_append {V : Type} (xs ys : List (Event V)) :
    countError (xs ++ ys) = countError xs + countError ys := by
  simp [countError, List.countP_append]

theorem count_zero_of_all_log {V : Type} (L : List (Event V))
    (h : ∀ e ∈ L, ∃ t, e = Event.log t) :
    countTerminal L = 0 ∧ countResult L = 0 ∧ countError L = 0 := by
  refine ⟨List.countP_eq_zero.mpr ?_, List.countP_eq_zero.mpr ?_,
    List.countP_eq_zero.mpr ?_⟩ <;>
    · intro e he
      obtain ⟨t, rfl⟩ := h e he
      simp [isTerminalEv, isResultEv, isErrorEv]

theorem countTerminal_single_error {V : Type} (s : String) :
    countTerminal [Event.errorEv (V := V) s] = 1 := rfl

theorem countTerminal_single_result {V : Type} (v : V) :
    countTerminal [Event.result v] = 1 := rfl

/-! ## History replay -/

theorem histList_all_log {V : Type} (ls : List LogEntry) :
    ∀ e ∈ histList (V := V) ls, ∃ t, e = Event.log t := by
  intro e he
  simp only [histList, List.mem_filterMap] at he
  obtain ⟨line, _, hline⟩ := he
  cases line with
  | str t =>
      by_cases ht : t.trim = ""
      · simp [ht] at hline
      · simp [ht] at hline
        exact ⟨t, hline.symm⟩
  | nonStr => simp at hline

theorem histEvents_all_log {V : Type} (logs : Option (List LogEntry)) :
    ∀ e ∈ histEvents (V := V) logs, ∃ t, e = Event.log t := by
  cases logs with
  | none => simp [histEvents]
  | some ls => exact histList_all_log ls

theorem foldl_replayStep_open {V : Type} (ls : List LogEntry) :
    ∀ st : SseState V, st.closed = false →
      ls.foldl replayStep st = { st with events := st.events ++ histList ls } := by
  induction ls with
  | nil => intro st _; simp [histList]
  | cons l ls ih =>
      intro st h
      have hstep : ∃ L, replayStep st l = { st with events := st.events ++ L } ∧
          histList (V := V) (l :: ls) = L ++ histList ls := by
        cases l with
        | str t =>
            by_cases ht : t.trim = ""
            · exact ⟨[], by simp [replayStep, ht], by simp [histList, ht]⟩
            · exact ⟨[Event.log t], by simp [replayStep, ht, write_open st _ h],
                by simp [histList, ht]⟩
        | nonStr => exact ⟨[], by simp [replayStep], by simp [histList]⟩
      obtain ⟨L, h1, h2⟩ := hstep
      calc (l :: ls).foldl replayStep st
          = ls.foldl replayStep (replayStep st l) := rfl
        _ = ls.foldl replayStep { st with events := st.events ++ L } := by rw [h1]
        _ = { st with events := (st.events ++ L) ++ histList ls } :=
            ih { st with events := st.events ++ L } h
        _ = { st with events := st.events ++ histList (l :: ls) } := by
            rw [h2, List.append_assoc]

theorem replayFold_open {V : Type} (st : SseState V) (logs : Option (List LogEntry))
    (h : st.closed = false) :
    replayFold st logs = { st with events := st.events ++ histEvents logs } := by
  cases logs with
  | none => simp [replayFold, histEvents]
  | some ls => simpa [replayFold, histEvents] using foldl_replayStep_open ls st h

/-! ## The live tail-log emission -/

theorem tailLog_spec {V : Type} (st : SseState V) (logs : Option (List LogEntry)) :
    ∃ L, tailLog st logs = { st with events := st.events ++ L } ∧
      (∀ e ∈ L, ∃ t, e = Event.log t) := by
  cases logs with
  | none => exact ⟨[], by simp [tailLog], by simp⟩
  | some ls =>
      cases hl : ls.getLast? with
      | none => exact ⟨[], by simp [tailLog, hl], by simp⟩
      | some line =>
          cases line with
          | nonStr => exact ⟨[], by simp [tailLog, hl], by simp⟩
          | str t =>
              by_cases ht : t.trim = ""
              · exact ⟨[], by simp [tailLog, hl, ht], by simp⟩
              · by_cases hc : st.closed = true
                · exact ⟨[], by simp [tailLog, hl, ht, write_dead st _ hc], by simp⟩
                · refine ⟨[Event.log t], ?_, ?_⟩
                  · have hc' : st.closed = false := by
                      revert hc; cases st.closed <;> simp
                    simp [tailLog, hl, ht, write_open st _ hc']
                  · intro e he
                    simp at he
                    exact ⟨t, he⟩

/-! ## Connection-state invariants -/

theorem handleUpdate_error {V : Type} (st : SseState V) (p : UpdPayload V)
    (h1 : st.closed = false) (hs : p.status = some "error") :
    ∃ L, (∀ e ∈ L, ∃ t, e = Event.log t) ∧
      handleUpdate st (some p) =
        { events := (st.events ++ L) ++ [Event.errorEv (p.error.getD "job error")],
          closed := true, subscribed := false } := by
  obtain ⟨L, hL, hlog⟩ := tailLog_spec st p.logs
  refine ⟨L, hlog, ?_⟩
  simp only [handleUpdate, hs, hL]
  simp [write, h1]

theorem handleUpdate_done {V : Type} (st : SseState V) (p : UpdPayload V) (v : V)
    (h1 : st.closed = false) (hs : p.status = some "done") (hr : p.result = some v) :
    ∃ L, (∀ e ∈ L, ∃ t, e = Event.log t) ∧
      handleUpdate st (some p) =
        { events := (st.events ++ L) ++ [Event.result v],
          closed := true, subscribed := false } := by
  obtain ⟨L, hL, hlog⟩ := tailLog_spec st p.logs
  refine ⟨L, hlog, ?_⟩
  simp only [handleUpdate, hs, hr, hL]
  simp [write, h1]

theorem handleUpdate_nonterminal {V : Type} (st : SseState V) (p : UpdPayload V)
    (hs : ¬(p.status = some "error")) (hd : ¬(p.status = some "done" ∧ p.result ≠ none)) :
    ∃ L, (∀ e ∈ L, ∃ t, e = Event.log t) ∧
      handleUpdate st (some p) = { st with events := st.events ++ L } := by
  obtain ⟨L, hL, hlog⟩ := tailLog_spec st p.logs
  refine ⟨L, hlog, ?_⟩
  simp only [handleUpdate, hs, ite_false, if_neg]
  cases hr : p.result with
  | none => simpa [hr] using hL
  | some v =>
      have hne : ¬(p.status = some "done") := by
        intro hc; exact hd ⟨hc, by simp [hr]⟩
      have hb : (p.status == some "done") = false := by
        simpa using hne
      simpa [hr, hb] using hL

theorem goodState_handleUpdate {V : Type} (st : SseState V) (n : Option (UpdPayload V))
    (h1 : st.closed = false) (h3 : countTerminal st.events = 0) :
    goodState (handleUpdate st n) := by
  cases n with
  | none =>
      exact ⟨by simp [handleUpdate, h3], by simp [handleUpdate, h3],
        fun _ => by simpa [handleUpdate] using h1⟩
  | some p =>
      by_cases hs : p.status = some "error"
      · obtain ⟨L, hlog, heq⟩ := handleUpdate_error st p h1 hs
        have hz := (count_zero_of_all_log L hlog).1
        refine ⟨?_, by simp [heq], by simp [heq]⟩
        simp only [heq]
        rw [countTerminal_append, countTerminal_append, h3, hz,
          countTerminal_single_error]
      · by_cases hd : p.status = some "done" ∧ p.result ≠ none
        · obtain ⟨v, hv⟩ := Option.ne_none_iff_exists'.mp hd.2
          obtain ⟨L, hlog, heq⟩ := handleUpdate_done st p v h1 hd.1 hv
          have hz := (count_zero_of_all_log L hlog).1
          refine ⟨?_, by simp [heq], by simp [heq]⟩
          simp only [heq]
          rw [countTerminal_append, countTerminal_append, h3, hz,
            countTerminal_single_result]
        · obtain ⟨L, hlog, heq⟩ := handleUpdate_nonterminal st p hs hd
          have hz := (count_zero_of_all_log L hlog).1
          have hcnt : countTerminal ((handleUpdate st (some p)).events) = 0 := by
            simp only [heq]
            rw [countTerminal_append, h3, hz]
          exact ⟨by rw [hcnt]; omega, fun _ => hcnt,
            fun _ => by simpa [heq] using h1⟩

theorem goodState_stepRun {V : Type} (st : SseState V) (s : Step V)
    (h : goodState st) : goodState (stepRun st s) := by
  obtain ⟨ha, hb, hc⟩ := h
  cases s with
  | update n =>
      cases hsub : st.subscribed with
      | false => simpa [stepRun, hsub] using ⟨ha, hb, hc⟩
      | true =>
          have h1 := hc hsub
          simpa [stepRun, hsub] using goodState_handleUpdate st n h1 (hb h1)
  | abort =>
      cases hcl : st.closed with
      | true =>
          refine ⟨by simpa [stepRun, hcl] using ha, ?_, ?_⟩ <;>
            simp [stepRun, hcl]
      | false =>
          refine ⟨by simpa [stepRun, hcl] using ha, ?_, ?_⟩ <;>
            simp [stepRun, hcl]

theorem goodState_runSteps {V : Type} (steps : List (Step V)) :
    ∀ st : SseState V, goodState st → goodState (runSteps st steps) := by
  induction steps with
  | nil => intro st h; exact h
  | cons s steps ih =>
      intro st h
      exact ih (stepRun st s) (goodState_stepRun st s h)

theorem stepRun_dead {V : Type} (st : SseState V) (s : Step V)
    (hc : st.closed = true) (hs : st.subscribed = false) :
    stepRun st s = st := by
  cases s with
  | update n => simp [stepRun, hs]
  | abort =>
      obtain ⟨ev, cl, sub⟩ := st
      simp_all [stepRun]

theorem runSteps_dead {V : Type} (steps : List (Step V)) :
    ∀ st : SseState V, st.closed = true → st.subscribed = false →
      runSteps st steps = st := by
  induction steps with
  | nil => intro st _ _; rfl
  | cons s steps ih =>
      intro st hc hs
      show runSteps (stepRun st s) steps = st
      rw [stepRun_dead st s hc hs]
      exact ih st hc hs

/-! ## Characterization of the connection-time phase -/

theorem countTerminal_cons_log {V : Type} (s : String) (L : List (Event V)) :
    countTerminal (Event.log s :: L) = countTerminal L := by
  simp [countTerminal, List.countP_cons, isTerminalEv]

theorem count_zero_of_terminal_zero {V : Type} (es : List (Event V))
    (h : countTerminal es = 0) : countError es = 0 ∧ countResult es = 0 := by
  have hall := List.countP_eq_zero.mp h
  constructor <;> refine List.countP_eq_zero.mpr ?_ <;> intro e he <;>
    have ht := hall e he <;> cases e <;>
    simp_all [isTerminalEv, isErrorEv, isResultEv]

theorem connectState_readErr {V : Type} (msg : String) :
    connectState (V := V) (.readErr msg) =
      { events := [Event.log "connected", Event.errorEv msg],
        closed := true, subscribed := false } := by
  simp [connectState, write, initState]

theorem connectState_notFound {V : Type} :
    connectState (V := V) .notFound =
      { events := [Event.log "connected", Event.errorEv "job not found"],
        closed := true, subscribed := false } := by
  simp [connectState, write, initState]

theorem connectState_found_done {V : Type} (row : JobRow V) (v : V)
    (hs : row.status = "done") (hr : row.result = some v) :
    connectState (.found row) =
      { events := Event.log "connected" :: histEvents row.logs ++ [Event.result v],
        closed := true, subscribed := false } := by
  have hst0 : write (initState V) (.log "connected") =
      ({ events := [Event.log "connected"], closed := false,
         subscribed := false } : SseState V) := by
    simp [write, initState]
  simp only [connectState, connectFound, hst0]
  rw [replayFold_open _ _ rfl]
  simp [hr, hs, write]

theorem connectState_found_error {V : Type} (row : JobRow V)
    (hs : row.status = "error") :
    connectState (.found row) =
      { events := Event.log "connected" :: histEvents row.logs
          ++ [Event.errorEv (row.error.getD "job error")],
        closed := true, subscribed := false } := by
  have hst0 : write (initState V) (.log "connected") =
      ({ events := [Event.log "connected"], closed := false,
         subscribed := false } : SseState V) := by
    simp [write, initState]
  simp only [connectState, connectFound, hst0]
  rw [replayFold_open _ _ rfl]
  cases hr : row.result with
  | none => simp [hs, write]
  | some v => simp [hs, write]

theorem connectState_found_live {V : Type} (row : JobRow V)
    (h1 : ¬(row.status = "done" ∧ row.result ≠ none)) (h2 : row.status ≠ "error") :
    connectState (.found row) =
      { events := Event.log "connected" :: histEvents row.logs,
        closed := false, subscribed := true } := by
  have hst0 : write (initState V) (.log "connected") =
      ({ events := [Event.log "connected"], closed := false,
         subscribed := false } : SseState V) := by
    simp [write, initState]
  simp only [connectState, connectFound, hst0]
  rw [replayFold_open _ _ rfl]
  cases hr : row.result with
  | none => simp [h2]
  | some v =>
      have hsd : row.status ≠ "done" := fun hc => h1 ⟨hc, by simp [hr]⟩
      have hb : (row.status == "done") = false := beq_eq_false_iff_ne.mpr hsd
      simp [hb, h2]

theorem goodState_connectState {V : Type} (read : ReadOutcome V) :
    goodState (connectState read) := by
  cases read with
  | readErr msg =>
      rw [connectState_readErr]
      exact ⟨by simp [countTerminal, List.countP_cons, isTerminalEv],
        by simp, by simp⟩
  | notFound =>
      rw [connectState_notFound]
      exact ⟨by simp [countTerminal, List.countP_cons, isTerminalEv],
        by simp, by simp⟩
  | found row =>
      have hz := (count_zero_of_all_log _ (histEvents_all_log (V := V) row.logs)).1
      by_cases hd : row.status = "done" ∧ row.result ≠ none
      · obtain ⟨v, hv⟩ := Option.ne_none_iff_exists'.mp hd.2
        rw [connectState_found_done row v hd.1 hv]
        refine ⟨?_, by simp, by simp⟩
        dsimp only
        rw [countTerminal_append, countTerminal_cons_log, hz,
          countTerminal_single_result]
      · by_cases he : row.status = "error"
        · rw [connectState_found_error row he]
          refine ⟨?_, by simp, by simp⟩
          dsimp only
          rw [countTerminal_append, countTerminal_cons_log, hz,
            countTerminal_single_error]
        · rw [connectState_found_live row hd he]
          have h0 : countTerminal
              (Event.log "connected" :: histEvents (V := V) row.logs) = 0 := by
            rw [countTerminal_cons_log, hz]
          exact ⟨by rw [h0]; omega, fun _ => h0, fun _ => rfl⟩

theorem liveState_connectState_found {V : Type} (row : JobRow V)
    (h1 : ¬(row.status = "done" ∧ row.result ≠ none)) (h2 : row.status ≠ "error") :
    liveState (connectState (.found row)) := by
  rw [connectState_found_live row h1 h2]
  have hz := (count_zero_of_all_log _ (histEvents_all_log (V := V) row.logs)).1
  exact ⟨rfl, rfl, by rw [countTerminal_cons_log, hz]⟩

/-! ## Steps that do not close the stream -/

theorem liveState_stepRun {V : Type} (st : SseState V) (s : Step V)
    (hl : liveState st) (hn : nonClosingStep s) : liveState (stepRun st s) := by
  obtain ⟨hc, hs, hz⟩ := hl
  cases s with
  | abort => exact absurd hn (by simp [nonClosingStep])
  | update n =>
      cases n with
      | none => simpa [stepRun, hs, handleUpdate] using ⟨hc, hs, hz⟩
      | some p =>
          obtain ⟨hp1, hp2⟩ := hn
          obtain ⟨L, hlog, heq⟩ := handleUpdate_nonterminal st p hp1 hp2
          have hz2 := (count_zero_of_all_log L hlog).1
          refine ⟨?_, ?_, ?_⟩ <;>
            simp [stepRun, hs, heq, countTerminal_append, hz, hz2, hc]

theorem liveState_runSteps {V : Type} (steps : List (Step V)) :
    ∀ st : SseState V, liveState st → (∀ s ∈ steps, nonClosingStep s) →
      liveState (runSteps st steps) := by
  induction steps with
  | nil => intro st h _; exact h
  | cons s steps ih =>
      intro st h hall
      exact ih (stepRun st s)
        (liveState_stepRun st s h (hall s (by simp)))
        (fun s' hs' => hall s' (by simp [hs']))

/-! ## Claim theorems -/

/-- C10: a stream request whose `jobId` query parameter is missing or
empty (the route sees `""` after `?? ""`) yields the plain HTTP 400
response `missing jobId`: no SSE connection state is created, hence no
events and no subscription, and the result does not depend on the job
store at all (no read is performed). -/
theorem c10_missing_jobId_plain_400 {V : Type} (read read2 : ReadOutcome V) :
    streamGET "" read = GETResult.plain "missing jobId" 400 ∧
    streamGET "" read = streamGET "" read2 := by
  exact ⟨rfl, rfl⟩

/-- C4: whenever a callback shared secret is configured (non-empty),
a request whose secret does not exactly match (including a missing
secret) gets the 401 `unauthorized` response and the job store is
returned unchanged: no row is mutated. -/
theorem c4_bad_secret_rejected {V : Type} (cfgSecret : String)
    (b : CallbackBody V) (db : Db V) (storeErr : Option String)
    (hcfg : cfgSecret ≠ "") (hsec : b.secret ≠ some cfgSecret) :
    resultPOST cfgSecret b db storeErr =
      ({ status := 401, ok := false, error := some "unauthorized" }, db) := by
  simp [resultPOST, hcfg, hsec]

/-- Witness for C4 at a concrete configured secret and wrong request
secret. -/
theorem c4_bad_secret_rejected_witness :
    resultPOST "s" ({ jobId := "j", secret := some "wrong" } : CallbackBody Nat)
        (fun _ => none) none =
      ({ status := 401, ok := false, error := some "unauthorized" },
        (fun _ => none : Db Nat)) :=
  c4_bad_secret_rejected "s" { jobId := "j", secret := some "wrong" }
    (fun _ => none) none (by decide) (by decide)

/-- C3: callback partial-update frame property.  For every callback
request (any secret configuration, any body, any store outcome): rows
other than the targeted job are untouched, the `logs` column is never
written by the callback, and each of `status`, `progress`, `message`,
`error`, `result` is left unchanged on every row whenever it is absent
from the request body.  Since this holds for an arbitrary store, it
holds after every call of any sequence of callback calls. -/
theorem c3_callback_field_frame {V : Type} (cfgSecret : String)
    (b : CallbackBody V) (db : Db V) (storeErr : Option String) :
    (∀ id, id ≠ b.jobId → (resultPOST cfgSecret b db storeErr).2 id = db id) ∧
    (∀ id, ((resultPOST cfgSecret b db storeErr).2 id).map JobRow.logs
      = (db id).map JobRow.logs) ∧
    (b.status = none → ∀ id, ((resultPOST cfgSecret b db storeErr).2 id).map JobRow.status
      = (db id).map JobRow.status) ∧
    (b.progress = none → ∀ id, ((resultPOST cfgSecret b db storeErr).2 id).map JobRow.progress
      = (db id).map JobRow.progress) ∧
    (b.message = none → ∀ id, ((resultPOST cfgSecret b db storeErr).2 id).map JobRow.message
      = (db id).map JobRow.message) ∧
    (b.error = none → ∀ id, ((resultPOST cfgSecret b db storeErr).2 id).map JobRow.error
      = (db id).map JobRow.error) ∧
    (b.result = none → ∀ id, ((resultPOST cfgSecret b db storeErr).2 id).map JobRow.result
      = (db id).map JobRow.result) := by
  have hdb : (resultPOST cfgSecret b db storeErr).2 = db ∨
      (resultPOST cfgSecret b db storeErr).2 = dbUpdate db b.jobId (buildPatch b) := by
    by_cases h1 : cfgSecret ≠ "" ∧ b.secret ≠ some cfgSecret
    · left; simp [resultPOST, h1]
    · by_cases h2 : b.jobId = ""
      · left; simp [resultPOST, h1, h2]
      · cases storeErr with
        | some m => left; simp [resultPOST, h1, h2]
        | none => right; simp [resultPOST, h1, h2]
  rcases hdb with h | h <;> rw [h]
  · exact ⟨fun _ _ => rfl, fun _ => rfl, fun _ _ => rfl, fun _ _ => rfl,
      fun _ _ => rfl, fun _ _ => rfl, fun _ _ => rfl⟩
  · refine ⟨fun id hid => by simp [dbUpdate, hid], ?_, ?_, ?_, ?_, ?_, ?_⟩
    · intro id
      by_cases hid : id = b.jobId
      · cases hr : db b.jobId <;> simp [dbUpdate, applyPatch, hid, hr]
      · simp [dbUpdate, hid]
    · intro hb id
      by_cases hid : id = b.jobId
      · cases hr : db b.jobId <;>
          simp [dbUpdate, applyPatch, buildPatch, hb, hid, hr]
      · simp [dbUpdate, hid]
    · intro hb id
      by_cases hid : id = b.jobId
      · cases hr : db b.jobId <;>
          simp [dbUpdate, applyPatch, buildPatch, hb, hid, hr]
      · simp [dbUpdate, hid]
    · intro hb id
      by_cases hid : id = b.jobId
      · cases hr : db b.jobId <;>
          simp [dbUpdate, applyPatch, buildPatch, hb, hid, hr]
      · simp [dbUpdate, hid]
    · intro hb id
      by_cases hid : id = b.jobId
      · cases hr : db b.jobId <;>
          simp [dbUpdate, applyPatch, buildPatch, hb, hid, hr]
      · simp [dbUpdate, hid]
    · intro hb id
      by_cases hid : id = b.jobId
      · cases hr : db b.jobId <;>
          simp [dbUpdate, applyPatch, buildPatch, hb, hid, hr]
      · simp [dbUpdate, hid]

/-- Witness for C3: a call that only sets `progress` leaves `status`
unchanged on the stored row. -/
theorem c3_callback_field_frame_witness :
    ((resultPOST "" ({ jobId := "j", progress := some 40 } : CallbackBody Nat)
        (fun _ => some { status := "running", progress := 5, message := none,
                         logs := none, result := none, error := none }) none).2 "j").map
      JobRow.status =
    ((fun _ => some { status := "running", progress := 5, message := none,
                      logs := none, result := none, error := none } : Db Nat) "j").map
      JobRow.status :=
  (c3_callback_field_frame "" ({ jobId := "j", progress := some 40 } : CallbackBody Nat)
    (fun _ => some { status := "running", progress := 5, message := none,
                     logs := none, result := none, error := none }) none).2.2.1 rfl "j"

/-- C7: a callback carrying a numeric `progress` stores it clamped to
[0,100]: below 0 stores 0, above 100 stores 100, in-range values are
stored unchanged. -/
theorem c7_progress_clamped {V : Type} (cfgSecret : String) (b : CallbackBody V)
    (db : Db V) (p : Int) (row : JobRow V)
    (hauth : ¬(cfgSecret ≠ "" ∧ b.secret ≠ some cfgSecret))
    (hjob : ¬(b.jobId = "")) (hp : b.progress = some p)
    (hrow : db b.jobId = some row) :
    ∃ r, (resultPOST cfgSecret b db none).2 b.jobId = some r ∧
      r.progress = max 0 (min 100 p) ∧
      (p < 0 → r.progress = 0) ∧
      (100 < p → r.progress = 100) ∧
      (0 ≤ p → p ≤ 100 → r.progress = p) := by
  have hdb : (resultPOST cfgSecret b db none).2 = dbUpdate db b.jobId (buildPatch b) := by
    simp [resultPOST, hauth, hjob]
  have hclamp : (applyPatch row (buildPatch b)).progress = max 0 (min 100 p) := by
    simp [applyPatch, buildPatch, hp]
  refine ⟨applyPatch row (buildPatch b), by rw [hdb]; simp [dbUpdate, hrow], hclamp,
    ?_, ?_, ?_⟩
  · intro h
    rw [hclamp, min_eq_right (by omega : p ≤ (100 : Int)),
      max_eq_left (by omega : p ≤ (0 : Int))]
  · intro h
    rw [hclamp, min_eq_left (by omega : (100 : Int) ≤ p)]
    decide
  · intro h1 h2
    rw [hclamp, min_eq_right h2, max_eq_right h1]

/-- Witness for C7 at an out-of-range input 150, which stores 100. -/
theorem c7_progress_clamped_witness :
    ∃ r, (resultPOST "" ({ jobId := "j", progress := some 150 } : CallbackBody Nat)
        (fun _ => some { status := "running", progress := 5, message := none,
                         logs := none, result := none, error := none }) none).2 "j"
      = some r ∧
      r.progress = max 0 (min 100 150) ∧
      ((150 : Int) < 0 → r.progress = 0) ∧
      ((100 : Int) < 150 → r.progress = 100) ∧
      ((0 : Int) ≤ 150 → (150 : Int) ≤ 100 → r.progress = 150) :=
  c7_progress_clamped "" ({ jobId := "j", progress := some 150 } : CallbackBody Nat)
    (fun _ => some { status := "running", progress := 5, message := none,
                     logs := none, result := none, error := none }) 150
    { status := "running", progress := 5, message := none,
      logs := none, result := none, error := none }
    (by simp) (by decide) rfl rfl

/-- C5: when the worker dispatch fails (non-success status), the
submission endpoint marks the just-created job `error` with a captured
error message and responds 502 with `ok:false`, the job id, and the
error text. -/
theorem c5_dispatch_failure {V : Type} (id n8nUrl : String) (fire : FetchRes)
    (db : Db V) (hurl : ¬(n8nUrl = "")) (hfire : fire.ok = false) :
    (submitPOST (V := V) (.inserted id) n8nUrl fire db).1 =
      { status := 502, ok := false,
        error := some (if fire.text ≠ "" then fire.text else "n8n webhook error"),
        jobId := some id } ∧
    ∃ r, (submitPOST (V := V) (.inserted id) n8nUrl fire db).2 id = some r ∧
      r.status = "error" ∧
      r.error = some (if fire.text ≠ "" then fire.text
                      else "n8n error " ++ toString fire.statusCode) ∧
      r.message = some "起動に失敗しました" := by
  constructor
  · simp [submitPOST, hurl, hfire]
  · refine ⟨{ status := "error", progress := 0,
              message := some "起動に失敗しました", logs := none, result := none,
              error := some (if fire.text ≠ "" then fire.text
                             else "n8n error " ++ toString fire.statusCode) },
      ?_, rfl, rfl, rfl⟩
    simp [submitPOST, hurl, hfire, dbUpdate, dbInsert, applyPatch, queuedRow]

/-- Witness for C5 with an empty dispatch response body, so both
fallback error texts are used. -/
theorem c5_dispatch_failure_witness :
    (submitPOST (V := Nat) (.inserted "J1") "http://n8n"
        { ok := false, statusCode := 500, text := "" } (fun _ => none)).1 =
      { status := 502, ok := false,
        error := some (if ("" : String) ≠ "" then "" else "n8n webhook error"),
        jobId := some "J1" } ∧
    ∃ r, (submitPOST (V := Nat) (.inserted "J1") "http://n8n"
        { ok := false, statusCode := 500, text := "" } (fun _ => none)).2 "J1"
      = some r ∧
      r.status = "error" ∧
      r.error = some (if ("" : String) ≠ "" then ""
                      else "n8n error " ++ toString (500 : Nat)) ∧
      r.message = some "起動に失敗しました" :=
  c5_dispatch_failure "J1" "http://n8n"
    { ok := false, statusCode := 500, text := "" } (fun _ => none)
    (by decide) rfl

theorem countError_single {V : Type} (s : String) :
    countError [Event.errorEv (V := V) s] = 1 := rfl

theorem countResult_single_of_error {V : Type} (s : String) :
    countResult [Event.errorEv (V := V) s] = 0 := rfl

/-- C1: on every stream connection — any initial read outcome followed
by any sequence of delivered change notifications and abort signals —
at most one terminal event (`result` or `error`) is ever emitted, and
closure is idempotent: once the connection state is closed by any
path, every further stimulus leaves the state (in particular the
emitted event sequence) entirely unchanged, a no-op. -/
theorem c1_at_most_one_terminal_and_idempotent_close {V : Type}
    (read : ReadOutcome V) (steps more : List (Step V)) :
    countTerminal (runSteps (connectState read) steps).events ≤ 1 ∧
    ((runSteps (connectState read) steps).closed = true →
      runSteps (runSteps (connectState read) steps) more
        = runSteps (connectState read) steps) := by
  have hg := goodState_runSteps steps (connectState read) (goodState_connectState read)
  refine ⟨hg.1, fun hc => ?_⟩
  have hs : (runSteps (connectState read) steps).subscribed = false := by
    cases hsub : (runSteps (connectState read) steps).subscribed with
    | false => rfl
    | true => exact absurd (hg.2.2 hsub) (by simp [hc])
  exact runSteps_dead more _ hc hs

/-- Witness for C1: a not-found connection closes immediately and a
subsequent abort stimulus is a no-op. -/
theorem c1_at_most_one_terminal_and_idempotent_close_witness :
    countTerminal (runSteps (connectState (V := Nat) .notFound) []).events ≤ 1 ∧
    runSteps (runSteps (connectState (V := Nat) .notFound) []) [Step.abort]
      = runSteps (connectState (V := Nat) .notFound) [] :=
  ⟨(c1_at_most_one_terminal_and_idempotent_close (V := Nat) .notFound [] [Step.abort]).1,
   (c1_at_most_one_terminal_and_idempotent_close (V := Nat) .notFound [] [Step.abort]).2
     rfl⟩

/-- C2: a row that is already terminal at connection time — `done`
with a present result, or `error` — produces the connected ack, the
stored history log events in order, then exactly one terminal event
(the result payload, or the error message with fallback `job error`),
after which the state is closed and no live subscription was ever
established. -/
theorem c2_terminal_at_connect {V : Type} (row : JobRow V) :
    (∀ v : V, row.status = "done" → row.result = some v →
      connectState (.found row) =
        { events := Event.log "connected" :: histEvents row.logs ++ [Event.result v],
          closed := true, subscribed := false } ∧
      countTerminal (connectState (.found row)).events = 1) ∧
    (row.status = "error" →
      connectState (.found row) =
        { events := Event.log "connected" :: histEvents row.logs
            ++ [Event.errorEv (row.error.getD "job error")],
          closed := true, subscribed := false } ∧
      countTerminal (connectState (.found row)).events = 1) := by
  have hz := (count_zero_of_all_log _ (histEvents_all_log (V := V) row.logs)).1
  constructor
  · intro v hs hr
    have heq := connectState_found_done row v hs hr
    refine ⟨heq, ?_⟩
    rw [heq]
    dsimp only
    rw [countTerminal_append, countTerminal_cons_log, hz, countTerminal_single_result]
  · intro hs
    have heq := connectState_found_error row hs
    refine ⟨heq, ?_⟩
    rw [heq]
    dsimp only
    rw [countTerminal_append, countTerminal_cons_log, hz, countTerminal_single_error]

/-- Witness for C2 on a concrete done row with history containing a
blank line that is skipped. -/
theorem c2_terminal_at_connect_witness :
    connectState (.found sampleDoneRow) =
      { events := Event.log "connected" :: histEvents sampleDoneRow.logs
          ++ [Event.result 7],
        closed := true, subscribed := false } ∧
    countTerminal (connectState (.found sampleDoneRow)).events = 1 :=
  (c2_terminal_at_connect sampleDoneRow).1 7 rfl rfl

/-- C9: a `done` status with a null result is not treated as terminal.
At connection time such a row leads to an open, subscribed stream with
no terminal event emitted; during live tailing, an update payload with
`status = done` and null result emits no terminal event and leaves the
stream open and subscribed. -/
theorem c9_done_null_not_terminal {V : Type} (row : JobRow V)
    (st : SseState V) (p : UpdPayload V)
    (hrs : row.status = "done") (hrr : row.result = none)
    (hc : st.closed = false) (hs : st.subscribed = true)
    (hps : p.status = some "done") (hpr : p.result = none) :
    ((connectState (.found row)).closed = false ∧
     (connectState (.found row)).subscribed = true ∧
     countTerminal (connectState (.found row)).events = 0) ∧
    ((stepRun st (.update (some p))).closed = false ∧
     (stepRun st (.update (some p))).subscribed = true ∧
     countTerminal (stepRun st (.update (some p))).events
       = countTerminal st.events) := by
  constructor
  · exact liveState_connectState_found row (fun hcon => hcon.2 (by rw [hrr]))
      (by rw [hrs]; decide)
  · have hp1 : ¬(p.status = some "error") := by rw [hps]; decide
    have hp2 : ¬(p.status = some "done" ∧ p.result ≠ none) :=
      fun hcon => hcon.2 (by rw [hpr])
    obtain ⟨L, hlog, heq⟩ := handleUpdate_nonterminal st p hp1 hp2
    have hz := (count_zero_of_all_log L hlog).1
    refine ⟨?_, ?_, ?_⟩ <;>
      simp [stepRun, hs, heq, countTerminal_append, hz, hc]

/-- Witness for C9 on a concrete done-with-null row and payload. -/
theorem c9_done_null_not_terminal_witness :
    ((connectState (.found doneNullRow)).closed = false ∧
     (connectState (.found doneNullRow)).subscribed = true ∧
     countTerminal (connectState (.found doneNullRow)).events = 0) ∧
    ((stepRun openTailState (.update (some doneNullPayload))).closed = false ∧
     (stepRun openTailState (.update (some doneNullPayload))).subscribed = true ∧
     countTerminal (stepRun openTailState (.update (some doneNullPayload))).events
       = countTerminal openTailState.events) :=
  c9_done_null_not_terminal doneNullRow openTailState doneNullPayload
    rfl rfl rfl rfl rfl rfl

theorem histEvents_some {V : Type} (ls : List LogEntry) :
    histEvents (V := V) (some ls) = histList ls := rfl

theorem histList_eq_spec {V : Type} (ls : List LogEntry) :
    histList (V := V) ls = (specNonBlankLines ls).map Event.log := by
  induction ls with
  | nil => rfl
  | cons l ls ih =>
      cases l with
      | str t =>
          by_cases ht : t.trim = ""
          · simpa [histList, specNonBlankLines, List.filterMap_cons,
              List.filter_cons, ht] using ih
          · simpa [histList, specNonBlankLines, List.filterMap_cons,
              List.filter_cons, ht] using ih
      | nonStr =>
          simpa [histList, specNonBlankLines, List.filterMap_cons] using ih

/-- C6: history replay emits exactly one `log` event for each stored
entry that is a non-blank string — blanks and non-strings skipped — in
exactly the stored order, and within a connection these replayed
events appear in that order right after the connected ack. -/
theorem c6_history_replay_order {V : Type} (st : SseState V) (ls : List LogEntry)
    (row : JobRow V) (h : st.closed = false) (hlogs : row.logs = some ls) :
    (replayFold st (some ls)).events
      = st.events ++ (specNonBlankLines ls).map Event.log ∧
    ∃ rest, (connectState (.found row)).events
      = (Event.log "connected" :: (specNonBlankLines ls).map Event.log) ++ rest := by
  have hspec : histList (V := V) ls = (specNonBlankLines ls).map Event.log :=
    histList_eq_spec ls
  constructor
  · rw [replayFold_open st _ h]
    dsimp only
    rw [histEvents_some, hspec]
  · by_cases hd : row.status = "done" ∧ row.result ≠ none
    · obtain ⟨v, hv⟩ := Option.ne_none_iff_exists'.mp hd.2
      refine ⟨[Event.result v], ?_⟩
      rw [connectState_found_done row v hd.1 hv]
      dsimp only
      rw [hlogs, histEvents_some, hspec]
    · by_cases he : row.status = "error"
      · refine ⟨[Event.errorEv (row.error.getD "job error")], ?_⟩
        rw [connectState_found_error row he]
        dsimp only
        rw [hlogs, histEvents_some, hspec]
      · refine ⟨[], ?_⟩
        rw [connectState_found_live row hd he]
        dsimp only
        rw [hlogs, histEvents_some, hspec]
        simp

/-- Witness for C6 on a concrete history with a blank and a non-string
entry. -/
theorem c6_history_replay_order_witness :
    (replayFold openTailState (some sampleLogList)).events
      = openTailState.events ++ (specNonBlankLines sampleLogList).map Event.log ∧
    ∃ rest, (connectState (.found sampleDoneRow)).events
      = (Event.log "connected"
          :: (specNonBlankLines sampleLogList).map (Event.log (V := Nat))) ++ rest :=
  c6_history_replay_order openTailState sampleLogList sampleDoneRow rfl rfl

/-- C8: for a job that is non-terminal at connection time, if after
any number of non-closing stimuli a change notification with
`status = error` is delivered, the connection has emitted exactly one
`error` event — carrying the payload's error message, with fallback
`job error` — as its last event, has emitted no `result` event, and is
closed with the subscription removed. -/
theorem c8_live_error_terminates {V : Type} (row : JobRow V)
    (pre : List (Step V)) (p : UpdPayload V)
    (h1 : ¬(row.status = "done" ∧ row.result ≠ none)) (h2 : row.status ≠ "error")
    (hpre : ∀ s ∈ pre, nonClosingStep s) (hp : p.status = some "error") :
    countError (runSteps (connectState (.found row))
        (pre ++ [Step.update (some p)])).events = 1 ∧
    countResult (runSteps (connectState (.found row))
        (pre ++ [Step.update (some p)])).events = 0 ∧
    (runSteps (connectState (.found row))
        (pre ++ [Step.update (some p)])).closed = true ∧
    (runSteps (connectState (.found row))
        (pre ++ [Step.update (some p)])).subscribed = false ∧
    (runSteps (connectState (.found row))
        (pre ++ [Step.update (some p)])).events.getLast?
      = some (Event.errorEv (p.error.getD "job error")) := by
  obtain ⟨hc, hs, hz⟩ :=
    liveState_runSteps pre _ (liveState_connectState_found row h1 h2) hpre
  have hrun : runSteps (connectState (.found row)) (pre ++ [Step.update (some p)])
      = stepRun (runSteps (connectState (.found row)) pre) (.update (some p)) := by
    simp [runSteps, List.foldl_append]
  obtain ⟨L, hlog, heq⟩ :=
    handleUpdate_error (runSteps (connectState (.found row)) pre) p hc hp
  have hfin : stepRun (runSteps (connectState (.found row)) pre) (.update (some p))
      = { events := ((runSteps (connectState (.found row)) pre).events ++ L)
            ++ [Event.errorEv (p.error.getD "job error")],
          closed := true, subscribed := false } := by
    simp [stepRun, hs, heq]
  obtain ⟨hze, hzr⟩ := count_zero_of_terminal_zero _ hz
  obtain ⟨hL0, hLr, hLe⟩ := count_zero_of_all_log L hlog
  rw [hrun, hfin]
  refine ⟨?_, ?_, rfl, rfl, ?_⟩
  · dsimp only
    rw [countError_append, countError_append, hze, hLe, countError_single]
  · dsimp only
    rw [countResult_append, countResult_append, hzr, hLr,
      countResult_single_of_error]
  · dsimp only
    exact List.getLast?_concat _

/-- Witness for C8 on a running row receiving an error update. -/
theorem c8_live_error_terminates_witness :
    countError (runSteps (connectState (.found runningRow))
        ([] ++ [Step.update (some errorPayload)])).events = 1 ∧
    countResult (runSteps (connectState (.found runningRow))
        ([] ++ [Step.update (some errorPayload)])).events = 0 ∧
    (runSteps (connectState (.found runningRow))
        ([] ++ [Step.update (some errorPayload)])).closed = true ∧
    (runSteps (connectState (.found runningRow))
        ([] ++ [Step.update (some errorPayload)])).subscribed = false ∧
    (runSteps (connectState (.found runningRow))
        ([] ++ [Step.update (some errorPayload)])).events.getLast?
      = some (Event.errorEv (errorPayload.error.getD "job error")) :=
  c8_live_error_terminates runningRow [] errorPayload
    (by decide) (by decide) (fun s hs => absurd hs (List.not_mem_nil s)) rfl

end SubsidyForm
